import Mathlib

/-!
Shallow embedding of the Truthly browser-extension content script
(`TruthlyExtension` class): the per-result analysis pipeline, its
URL-keyed result cache, the eligibility predicate, label rendering,
and the message handlers for settings updates and cache clearing.

JavaScript values are modelled as follows: possibly-absent object
fields become `Option`; JS string truthiness (empty string is falsy)
and the `x || d` defaulting idiom get explicit helpers; the JS number
in the `confidence` field becomes `Rat` with `Math.round x` modelled
as `⌊x + 1/2⌋` (its value on all finite numbers); the DOM element of
one search result becomes a record of exactly the element state the
script reads and writes (rendered labels, loading indicator, the
`data-truthly-processing` dataset flag, link href, title text).
Network interaction is externalized: each processing run receives the
outcome of its (at most one) fetch as a parameter, and the list of
requests the run would issue is returned as an effect list.
-/

/-- Settings record `{ enabled, autoAnalyze, cacheResults }` held in
`this.settings` of the content script. -/
structure Settings where
  enabled : Bool
  autoAnalyze : Bool
  cacheResults : Bool
  deriving Repr, DecidableEq

/-- The `data` object of a server response: fields `label`,
`confidence`, `summary`, `model`, each possibly absent. -/
structure AnalysisData where
  label : Option String
  confidence : Option Rat
  summary : Option String
  model : Option String
  deriving Repr, DecidableEq

/-- A parsed JSON response `{ success, data?, error? }` of the
`/api/analyze-extension` endpoint (the `error` string is never read
by the pipeline and is omitted). -/
structure AnalysisResponse where
  success : Bool
  data : Option AnalysisData
  deriving Repr, DecidableEq

/-- A rendered `.truthly-label` element: either a trust verdict built
by `displayLabel` or the error label built by `displayErrorLabel`. -/
inductive Label where
  | verdict (trustworthy : Bool) (confidence : Int) (summary : String) (model : String)
  | error
  deriving Repr, DecidableEq

/-- One search-result DOM element (`[data-ved]`), restricted to the
state the script reads and writes: whether an `a[href]` child exists
and its href, whether an `h3`/heading child exists and its trimmed
text, the rendered truthly labels, the loading indicator, and the
`data-truthly-processing` dataset entry (a string when set). -/
structure Elem where
  hasLink : Bool
  url : String
  hasTitle : Bool
  title : String
  labels : List Label
  loading : Bool
  processing : Option String
  deriving Repr, DecidableEq

/-- The cache `this.cache`, a JS `Map` from URL strings to response
`data` objects, modelled as an association list in insertion order. -/
abbrev Cache := List (String × AnalysisData)

/-- Map.has: whether the cache holds the key. -/
def cacheHas (c : Cache) (k : String) : Bool :=
  (List.lookup k c).isSome

/-- Map.get after a has-check; the default is never reached through
`processSearchResult`, which looks up only after `cacheHas`. -/
def cacheGet (c : Cache) (k : String) : AnalysisData :=
  (List.lookup k c).getD ⟨none, none, none, none⟩

/-- Map.set: overwrite in place when the key exists (a JS Map keeps
the original insertion position), append otherwise. -/
def cacheSet (c : Cache) (k : String) (v : AnalysisData) : Cache :=
  match c with
  | [] => [(k, v)]
  | (k', v') :: rest =>
    if k' = k then (k', v) :: rest else (k', v') :: cacheSet rest k v

/-- An observable side effect of a processing run; the only one the
claims track is the POST to `/api/analyze-extension`. -/
inductive Effect where
  | networkRequest (url title : String)
  deriving Repr, DecidableEq

/-- Environment outcome of the single awaited call in
`processSearchResult`: `reply (some r)` is a 2xx response parsed to
`r`; `reply none` is a transport error, non-2xx status or JSON parse
failure (all caught inside `analyzeUrlExtension`, which then returns
`{success:false}`); `throws` is an exception raised after the call,
reaching the `catch` block at the bottom of `processSearchResult`. -/
inductive FetchOutcome where
  | reply (r : Option AnalysisResponse)
  | throws
  deriving Repr, DecidableEq

/-- JS truthiness of a possibly-absent string field: absent, and the
empty string, are falsy. -/
def jsStrTruthy (s : Option String) : Bool :=
  match s with
  | some v => v ≠ ""
  | none => false

/-- The JS defaulting idiom `s || d` on a possibly-absent string. -/
def jsStrOr (s : Option String) (d : String) : String :=
  match s with
  | some v => if v = "" then d else v
  | none => d

/-- The JS defaulting idiom `x || 0` on a possibly-absent number
(an absent field and 0 both produce 0). -/
def jsNumOr0 (x : Option Rat) : Rat :=
  match x with
  | some v => v
  | none => 0

/-- JS `Math.round x`, which is `⌊x + 1/2⌋` on every finite number
(halves round toward +∞). The floor of `x + 1/2` is computed on the
numerator and denominator directly, which keeps the definition
kernel-evaluable; the lemma `jsRound_eq_floor` below identifies it
with `⌊x + 1/2⌋`. -/
def jsRound (q : Rat) : Int :=
  Rat.floor (mkRat (2 * q.num + q.den) (2 * q.den))

/-- JS `String.prototype.toLowerCase`, on the ASCII range (every
string this program compares case-insensitively is ASCII). -/
def asciiLower (c : Char) : Char :=
  if c.toNat ≥ 65 && c.toNat ≤ 90 then Char.ofNat (c.toNat + 32) else c

/-- Lowercasing of a whole string, character by character. -/
def jsToLower (s : String) : String :=
  ⟨s.data.map asciiLower⟩

/-- JS `String.prototype.includes` (substring test). -/
def jsIncludes (s sub : String) : Bool :=
  decide (sub.toList <:+: s.toList)

/-- JS `String.prototype.startsWith`. -/
def jsStartsWith (s p : String) : Bool :=
  p.data.isPrefixOf s.data

/-- The eligibility predicate `shouldProcessResult` (lines 91-104):
skip elements that already carry a `.truthly-label`, are marked
`data-truthly-processing="true"`, have no `a[href]`, or whose href
contains `google.com`, `maps.google.com` or `images.google.com` or
starts with `javascript:`. -/
def shouldProcessResult (e : Elem) : Bool :=
  if !e.labels.isEmpty then false
  else if e.processing == some "true" then false
  else if !e.hasLink then false
  else if jsIncludes e.url "google.com" || jsIncludes e.url "maps.google.com" ||
      jsIncludes e.url "images.google.com" || jsStartsWith e.url "javascript:" then false
  else true

/-- The label `displayLabel` (lines 187-226) renders for a `data`
object: when the `label` field is truthy, a verdict whose trust flag
is the case-insensitive comparison of the label with "trustworthy" or
"real", with `Math.round(confidence || 0)`, `summary || 'No summary
available'` and `model || 'BART/LLaMA'`; when the `label` field is
absent or empty, `displayLabel` falls through to the error label. -/
def renderedLabel (a : AnalysisData) : Label :=
  match a.label with
  | some l =>
    if l ≠ "" then
      Label.verdict
        (jsToLower l == "trustworthy" || jsToLower l == "real")
        (jsRound (jsNumOr0 a.confidence))
        (jsStrOr a.summary "No summary available")
        (jsStrOr a.model "BART/LLaMA")
    else Label.error
  | none => Label.error

/-- The `insertLabel` step as observed on the element: one more
rendered label (the DOM insertion-point heuristics are out of scope). -/
def insertLabel (e : Elem) (l : Label) : Elem :=
  { e with labels := e.labels ++ [l] }

/-- The `displayLabel` function, as it acts on the element state. -/
def displayLabel (e : Elem) (a : AnalysisData) : Elem :=
  insertLabel e (renderedLabel a)

/-- The `displayErrorLabel` function: renders the error label with the
retry affordance. -/
def displayErrorLabel (e : Elem) : Elem :=
  insertLabel e Label.error

/-- The `addLoadingIndicator` function: no-op when an indicator is
already shown, else shows one. -/
def addLoadingIndicator (e : Elem) : Elem :=
  if e.loading then e else { e with loading := true }

/-- The `removeLoadingIndicator` function. -/
def removeLoadingIndicator (e : Elem) : Elem :=
  { e with loading := false }

/-- The `analyzeUrlExtension` function, with the fetch outcome as a
parameter: a parsed 2xx response is returned as-is; any caught error
(transport, non-2xx, bad JSON) yields `{success:false}`. -/
def analyzeUrlExtension (net : Option AnalysisResponse) : AnalysisResponse :=
  match net with
  | some r => r
  | none => { success := false, data := none }

/-- Result of one `processSearchResult` run: the element afterwards,
the cache afterwards, and the network requests issued. -/
structure ProcResult where
  elem : Elem
  cache : Cache
  effects : List Effect
  deriving Repr, DecidableEq

/-- The `finally` block of `processSearchResult` (lines 139-142):
sets `data-truthly-processing` to the string "false" and removes the
loading indicator, on every exit path. -/
def finallyCleanup (r : ProcResult) : ProcResult :=
  { r with elem := removeLoadingIndicator { r.elem with processing := some "false" } }

/-- The `processSearchResult` function (lines 106-143), for one
element, with the fetch outcome supplied by the environment. Steps,
as in the source: mark the element processing; return early when the
link or title element is missing; serve a cache hit with no network
access; otherwise show the loading indicator, issue the request, and
on `{success:true, data}` write the cache entry (only when the
`cacheResults` setting is on) and render the label, on anything else
render the error label; an exception thrown after the awaited call is
caught and also renders the error label; the `finally` cleanup runs
on every path. -/
def processSearchResult (s : Settings) (cache : Cache) (e : Elem)
    (fetch : FetchOutcome) : ProcResult :=
  let e := { e with processing := some "true" }
  if !(e.hasLink && e.hasTitle) then
    finallyCleanup { elem := e, cache := cache, effects := [] }
  else
    let url := e.url
    let title := e.title
    if cacheHas cache url then
      finallyCleanup { elem := displayLabel e (cacheGet cache url), cache := cache, effects := [] }
    else
      let e := addLoadingIndicator e
      match fetch with
      | .throws =>
        finallyCleanup { elem := displayErrorLabel e, cache := cache,
                         effects := [Effect.networkRequest url title] }
      | .reply net =>
        let analysis := analyzeUrlExtension net
        match analysis.data with
        | some d =>
          if analysis.success then
            let cache' := if s.cacheResults then cacheSet cache url d else cache
            finallyCleanup { elem := displayLabel e d, cache := cache',
                             effects := [Effect.networkRequest url title] }
          else
            finallyCleanup { elem := displayErrorLabel e, cache := cache,
                             effects := [Effect.networkRequest url title] }
        | none =>
          finallyCleanup { elem := displayErrorLabel e, cache := cache,
                           effects := [Effect.networkRequest url title] }

/-- Result of one full page scan: the elements, the cache, and the
accumulated network requests. -/
structure ScanResult where
  elems : List Elem
  cache : Cache
  effects : List Effect
  deriving Repr, DecidableEq

/-- One step of the forEach loop of `processSearchResults`: process
the element when `shouldProcessResult` accepts it, skip it otherwise.
The fetch outcome for the element at position `i` is `env i`. -/
def scanStep (s : Settings) (env : Nat → FetchOutcome) (i : Nat)
    (acc : ScanResult) (e : Elem) : ScanResult :=
  if shouldProcessResult e then
    let r := processSearchResult s acc.cache e (env i)
    { elems := acc.elems ++ [r.elem], cache := r.cache,
      effects := acc.effects ++ r.effects }
  else
    { acc with elems := acc.elems ++ [e] }

/-- Loop body of `processSearchResults` over the element list,
tracking the index of the forEach callback. -/
def scanList (s : Settings) (env : Nat → FetchOutcome) (i : Nat)
    (acc : ScanResult) : List Elem → ScanResult
  | [] => acc
  | e :: rest => scanList s env (i + 1) (scanStep s env i acc e) rest

/-- The `processSearchResults` function (lines 80-89): return at once
when the extension is disabled, else run the per-element pipeline on
every eligible `[data-ved]` element. The single-threaded model runs
the async element pipelines in sequence; the spec accepts this
serialization (section 5). -/
def processSearchResults (s : Settings) (cache : Cache)
    (elems : List Elem) (env : Nat → FetchOutcome) : ScanResult :=
  if !s.enabled then { elems := elems, cache := cache, effects := [] }
  else scanList s env 0 { elems := [], cache := cache, effects := [] } elems

/-- The `removeAllLabels` function (lines 67-72): removes every
`.truthly-label` and `.truthly-loading` element on the page and
deletes every `data-truthly-processing` dataset entry. -/
def removeAllLabels (elems : List Elem) : List Elem :=
  elems.map fun e => { e with labels := [], loading := false, processing := none }

/-- A message received by the content script's `handleMessage`. -/
inductive Message where
  | settingsUpdated (s : Settings)
  | clearCache
  | other
  deriving Repr

/-- The whole mutable state of the content script together with the
page: the settings, the cache, and the search-result elements. -/
structure PageState where
  settings : Settings
  cache : Cache
  elems : List Elem
  deriving Repr, DecidableEq

/-- The `handleMessage` function (lines 47-65). The Bool records
whether a deferred scan was scheduled (`waitForSearchResults`);
unknown message types are ignored. -/
def handleMessage (st : PageState) (m : Message) : PageState × Bool :=
  match m with
  | .settingsUpdated s =>
    let st := { st with settings := s }
    if !s.enabled then
      ({ st with elems := removeAllLabels st.elems }, false)
    else
      (st, true)
  | .clearCache =>
    let st := { st with cache := [], elems := removeAllLabels st.elems }
    if st.settings.enabled then (st, true) else (st, false)
  | .other => (st, false)

/-- One externally triggered step of the content script: a message
arriving, or a deferred scan timer firing (from `init`'s mutation
observer or a scheduled `waitForSearchResults`), with the fetch
outcomes for that scan supplied by the environment. -/
inductive Step where
  | msg (m : Message)
  | scan (env : Nat → FetchOutcome)

/-- Apply one step to the page state. -/
def stepRun (st : PageState) (s : Step) : PageState :=
  match s with
  | .msg m => (handleMessage st m).1
  | .scan env =>
    let r := processSearchResults st.settings st.cache st.elems env
    { st with elems := r.elems, cache := r.cache }

/-- Apply a list of steps in order. -/
def runSteps (st : PageState) : List Step → PageState
  | [] => st
  | s :: rest => runSteps (stepRun st s) rest

/-- Whether a step is a settings update that re-enables the
extension. -/
def stepEnables (s : Step) : Bool :=
  match s with
  | .msg (.settingsUpdated s') => s'.enabled
  | _ => false

/-- The URL of the concrete scenario in the spec. -/
def exampleUrl : String := "http://example.com/a"

/-- A representative eligible search-result element: fresh, with a
link to `exampleUrl` and the title "Example". -/
def exampleElem : Elem :=
  { hasLink := true, url := exampleUrl, hasTitle := true, title := "Example",
    labels := [], loading := false, processing := none }

/-- The default settings (`enabled`, `autoAnalyze`, `cacheResults`
all on). -/
def defaultSettings : Settings := ⟨true, true, true⟩

/-- The `data` object of the spec's concrete scenario:
`{label:"Real", confidence:87.4, summary:"ok", model:"X"}`
(87.4 = 437/5). -/
def realData : AnalysisData :=
  { label := some "Real", confidence := some (mkRat 437 5),
    summary := some "ok", model := some "X" }

/-- A `data` object with no fields at all (in particular no label). -/
def noLabelData : AnalysisData := ⟨none, none, none, none⟩

/-- A `data` object carrying an unrecognized label value. -/
def bananaData : AnalysisData :=
  { label := some "banana", confidence := none, summary := none, model := none }

/-- A settings snapshot with the extension turned off. -/
def disabledSettings : Settings := ⟨false, true, true⟩

/-- An element that already carries a label, a loading indicator and
the processing mark (to exercise the reset paths). -/
def labeledElem : Elem :=
  { hasLink := true, url := exampleUrl, hasTitle := true, title := "Example",
    labels := [Label.error], loading := true, processing := some "true" }

/-- A page state with one labeled element and one cached entry. -/
def pageWithLabel : PageState :=
  { settings := defaultSettings, cache := [(exampleUrl, realData)],
    elems := [labeledElem] }

/-! Helper lemmas. -/

/-- The defining property of `jsRound`: it is `⌊q + 1/2⌋`, the value
of JS `Math.round` on every finite number. -/
theorem jsRound_eq_floor (q : ℚ) : jsRound q = ⌊q + 1/2⌋ := by
  have hd0 : ((q.den : ℚ)) ≠ 0 := by
    exact_mod_cast (Rat.den_pos q).ne'
  have h2d : (2 * (q.den : ℚ)) ≠ 0 := mul_ne_zero two_ne_zero hd0
  have hnum : (q.num : ℚ) = q * (q.den : ℚ) := by
    have h := Rat.num_div_den q
    rw [div_eq_iff hd0] at h
    exact h
  have hkey : mkRat (2 * q.num + (q.den : Int)) (2 * q.den) = q + 1/2 := by
    rw [Rat.mkRat_eq_div]
    push_cast
    rw [div_eq_iff h2d, hnum]
    ring
  unfold jsRound
  rw [hkey]
  rfl

/-- Any string containing "maps.google.com" or "images.google.com"
also contains "google.com". -/
theorem includes_google_of_sub {u sub : String}
    (hsub : "google.com".toList <:+: sub.toList)
    (h : jsIncludes u sub = true) : jsIncludes u "google.com" = true := by
  unfold jsIncludes at h ⊢
  rw [decide_eq_true_iff] at h ⊢
  exact hsub.trans h

/-! Claims. -/

/-- C1: for every URL whose analysis is in the cache, a subsequent
`processSearchResult` run for that exact URL issues no network
request (empty effect list) and renders the cached result. -/
theorem cache_hit_no_network (s : Settings) (cache : Cache) (e : Elem)
    (fetch : FetchOutcome)
    (hlink : e.hasLink = true) (htitle : e.hasTitle = true)
    (hhit : cacheHas cache e.url = true) :
    (processSearchResult s cache e fetch).effects = [] ∧
    (processSearchResult s cache e fetch).elem.labels
      = e.labels ++ [renderedLabel (cacheGet cache e.url)] := by
  unfold processSearchResult
  simp [hlink, htitle, hhit, finallyCleanup, displayLabel, insertLabel,
    removeLoadingIndicator]

/-- Witness for C1 at the concrete fixture: the cached URL is served
with zero network calls. -/
theorem cache_hit_no_network_witness :
    (processSearchResult defaultSettings [(exampleUrl, realData)] exampleElem
        FetchOutcome.throws).effects = [] ∧
    (processSearchResult defaultSettings [(exampleUrl, realData)] exampleElem
        FetchOutcome.throws).elem.labels
      = exampleElem.labels
        ++ [renderedLabel (cacheGet [(exampleUrl, realData)] exampleElem.url)] :=
  cache_hit_no_network defaultSettings [(exampleUrl, realData)] exampleElem
    FetchOutcome.throws (by decide) (by decide) (by decide)

/-- C2: the response `{success:true, data:{label:"Real",
confidence:87.4, summary:"ok", model:"X"}}` renders the trustworthy
verdict with confidence 87, summary "ok" and model "X" (label matched
case-insensitively); and missing summary/model fields fall back to
the fixed placeholders. -/
theorem label_normalization_scenario :
    (processSearchResult defaultSettings [] exampleElem
        (FetchOutcome.reply (some { success := true, data := some realData }))).elem.labels
      = [Label.verdict true 87 "ok" "X"] ∧
    renderedLabel { label := some "TRUSTWORTHY", confidence := none, summary := none, model := none }
      = Label.verdict true 0 "No summary available" "BART/LLaMA" := by
  decide

/-- C7: on every exit path of `processSearchResult` (no link/title,
cache hit, success, typed failure, thrown exception) the processing
mark is reset and the loading indicator is removed. -/
theorem cleanup_on_every_exit (s : Settings) (cache : Cache) (e : Elem)
    (fetch : FetchOutcome) :
    (processSearchResult s cache e fetch).elem.processing = some "false" ∧
    (processSearchResult s cache e fetch).elem.loading = false := by
  unfold processSearchResult
  cases fetch <;> dsimp only <;> (repeat' split) <;>
    simp [finallyCleanup, removeLoadingIndicator]

/-- C10: the cache read is unconditional on settings: with
`cacheResults` off, a cached URL is still served with no network call
and no cache change, and a settings update never evicts entries. -/
theorem cache_read_ignores_write_setting (cache : Cache) (e : Elem)
    (fetch : FetchOutcome) (s : Settings)
    (hcr : s.cacheResults = false)
    (hlink : e.hasLink = true) (htitle : e.hasTitle = true)
    (hhit : cacheHas cache e.url = true) :
    (processSearchResult s cache e fetch).effects = [] ∧
    (processSearchResult s cache e fetch).elem.labels
      = e.labels ++ [renderedLabel (cacheGet cache e.url)] ∧
    (processSearchResult s cache e fetch).cache = cache ∧
    (∀ (st : PageState) (s' : Settings),
      ((handleMessage st (Message.settingsUpdated s')).1).cache = st.cache) := by
  refine ⟨?_, ?_, ?_, ?_⟩
  · unfold processSearchResult
    simp [hlink, htitle, hhit, finallyCleanup]
  · unfold processSearchResult
    simp [hlink, htitle, hhit, finallyCleanup, displayLabel, insertLabel,
      removeLoadingIndicator]
  · unfold processSearchResult
    simp [hlink, htitle, hhit, finallyCleanup]
  · intro st s'
    cases hs : s'.enabled <;> simp [handleMessage, hs]

/-- Witness for C10 at the concrete fixture, with `cacheResults`
disabled. -/
theorem cache_read_ignores_write_setting_witness :
    (processSearchResult ⟨true, true, false⟩ [(exampleUrl, realData)] exampleElem
        FetchOutcome.throws).effects = [] ∧
    (processSearchResult ⟨true, true, false⟩ [(exampleUrl, realData)] exampleElem
        FetchOutcome.throws).elem.labels
      = exampleElem.labels
        ++ [renderedLabel (cacheGet [(exampleUrl, realData)] exampleElem.url)] ∧
    (processSearchResult ⟨true, true, false⟩ [(exampleUrl, realData)] exampleElem
        FetchOutcome.throws).cache = [(exampleUrl, realData)] ∧
    (∀ (st : PageState) (s' : Settings),
      ((handleMessage st (Message.settingsUpdated s')).1).cache = st.cache) :=
  cache_read_ignores_write_setting [(exampleUrl, realData)] exampleElem
    FetchOutcome.throws ⟨true, true, false⟩ (by decide) (by decide) (by decide) (by decide)

/-- C3 counterexample: the code does not clamp: input confidence 150
normalizes to 150, which is not within [0,100]. -/
theorem confidence_not_clamped_cex :
    renderedLabel { label := some "Real", confidence := some (mkRat 150 1), summary := none, model := none }
      = Label.verdict true 150 "No summary available" "BART/LLaMA" ∧
    ¬ ((150 : Int) ≤ 100) := by
  decide

/-- C3 amended: the normalized confidence is an integer by
construction (Math.round), and it lies in [0,100] whenever the input
confidence does; out-of-range inputs are passed through unclamped. -/
theorem confidence_in_range_of_input_in_range (a : AnalysisData) (c : ℚ)
    (hc : a.confidence = some c) (h0 : 0 ≤ c) (h100 : c ≤ 100) :
    ∀ t conf su m, renderedLabel a = Label.verdict t conf su m →
      0 ≤ conf ∧ conf ≤ 100 := by
  intro t conf su m h
  have hconf : conf = jsRound c := by
    unfold renderedLabel at h
    cases hl : a.label with
    | none => rw [hl] at h; simp at h
    | some l =>
      rw [hl] at h
      by_cases he : l = ""
      · rw [he] at h; simp at h
      · simp only [ne_eq, he, not_false_eq_true, ite_true, Label.verdict.injEq] at h
        obtain ⟨h1, h2, h3, h4⟩ := h
        rw [hc] at h2
        exact h2.symm
  rw [hconf, jsRound_eq_floor]
  constructor
  · exact Int.le_floor.mpr (by push_cast; linarith)
  · have hlt : (⌊c + 1/2⌋ : Int) < 101 := Int.floor_lt.mpr (by push_cast; linarith)
    omega

/-- Witness for C3's amended theorem at confidence 87.4: the rendered
confidence 87 lies in [0,100]. -/
theorem confidence_in_range_witness : (0 : Int) ≤ 87 ∧ (87 : Int) ≤ 100 :=
  confidence_in_range_of_input_in_range realData (mkRat 437 5) rfl
    (by decide) (by decide) true 87 "ok" "X" (by decide)

/-- The loading indicator does not change the rendered labels. -/
theorem addLoadingIndicator_labels (e : Elem) :
    (addLoadingIndicator e).labels = e.labels := by
  unfold addLoadingIndicator
  split <;> rfl

/-- C4 counterexample: a successful response whose data carries the
unrecognized label "banana" renders an untrustworthy trust verdict,
not the failure (error) label. -/
theorem unrecognized_label_verdict_cex :
    (processSearchResult defaultSettings [] exampleElem
        (FetchOutcome.reply (some { success := true, data := some bananaData }))).elem.labels
      = [Label.verdict false 0 "No summary available" "BART/LLaMA"] ∧
    Label.error ∉ (processSearchResult defaultSettings [] exampleElem
        (FetchOutcome.reply (some { success := true, data := some bananaData }))).elem.labels := by
  decide

/-- The error label is rendered for a data object exactly when its
label field is absent or the empty string (both falsy in JS). -/
theorem renderedLabel_eq_error_iff (d : AnalysisData) :
    renderedLabel d = Label.error ↔ (d.label = none ∨ d.label = some "") := by
  unfold renderedLabel
  cases hl : d.label with
  | none => simp
  | some l =>
    by_cases he : l = ""
    · subst he
      simp
    · simp [he]

/-- For a present non-empty label the rendered label is the verdict
with the case-insensitive trust comparison, the rounded defaulted
confidence, and the defaulted summary and model. -/
theorem renderedLabel_some_eq (d : AnalysisData) (l : String)
    (hl : d.label = some l) (he : l ≠ "") :
    renderedLabel d = Label.verdict
      (jsToLower l == "trustworthy" || jsToLower l == "real")
      (jsRound (jsNumOr0 d.confidence))
      (jsStrOr d.summary "No summary available")
      (jsStrOr d.model "BART/LLaMA") := by
  unfold renderedLabel
  rw [hl]
  simp [he]

/-- On a cache miss, a success reply carrying a data object renders
exactly the label `renderedLabel` computes for that object. -/
theorem success_path_labels (s : Settings) (cache : Cache) (e : Elem)
    (r : AnalysisResponse) (d : AnalysisData)
    (hlink : e.hasLink = true) (htitle : e.hasTitle = true)
    (hmiss : cacheHas cache e.url = false)
    (hr : r.data = some d) (hsucc : r.success = true) :
    (processSearchResult s cache e (FetchOutcome.reply (some r))).elem.labels
      = e.labels ++ [renderedLabel d] := by
  unfold processSearchResult
  simp [hlink, htitle, hmiss, analyzeUrlExtension, hr, hsucc, finallyCleanup,
    displayLabel, insertLabel, addLoadingIndicator_labels, removeLoadingIndicator]

/-- C4 amended: a successful data-carrying response yields the
failure outcome (the error label) exactly when its label field is
missing or the empty string; any present non-empty label value, even
an unrecognized one, renders a trust verdict instead (trustworthy
precisely by the case-insensitive "trustworthy"/"real" comparison),
and processing is total (never crashes). -/
theorem failure_iff_missing_label (s : Settings) (cache : Cache) (e : Elem)
    (r : AnalysisResponse) (d : AnalysisData)
    (hlink : e.hasLink = true) (htitle : e.hasTitle = true)
    (hmiss : cacheHas cache e.url = false)
    (hr : r.data = some d) (hsucc : r.success = true) :
    ((processSearchResult s cache e (FetchOutcome.reply (some r))).elem.labels
        = e.labels ++ [Label.error]
      ↔ (d.label = none ∨ d.label = some "")) ∧
    (∀ l, d.label = some l → l ≠ "" →
      (processSearchResult s cache e (FetchOutcome.reply (some r))).elem.labels
        = e.labels ++ [Label.verdict
            (jsToLower l == "trustworthy" || jsToLower l == "real")
            (jsRound (jsNumOr0 d.confidence))
            (jsStrOr d.summary "No summary available")
            (jsStrOr d.model "BART/LLaMA")]) := by
  have hout := success_path_labels s cache e r d hlink htitle hmiss hr hsucc
  constructor
  · rw [hout]
    constructor
    · intro h
      have herr : renderedLabel d = Label.error := by
        have h2 := List.append_cancel_left h
        simpa using h2
      exact (renderedLabel_eq_error_iff d).mp herr
    · intro h
      rw [(renderedLabel_eq_error_iff d).mpr h]
  · intro l hl he
    rw [hout, renderedLabel_some_eq d l hl he]

/-- Witness for C4's amended theorem at the unrecognized label
"banana": the outcome is not the failure label, and the rendered
verdict is the untrustworthy one with defaulted fields. -/
theorem failure_iff_missing_label_witness :
    ((processSearchResult defaultSettings [] exampleElem
        (FetchOutcome.reply (some { success := true, data := some bananaData }))).elem.labels
        = exampleElem.labels ++ [Label.error]
      ↔ (bananaData.label = none ∨ bananaData.label = some "")) ∧
    (∀ l, bananaData.label = some l → l ≠ "" →
      (processSearchResult defaultSettings [] exampleElem
          (FetchOutcome.reply (some { success := true, data := some bananaData }))).elem.labels
        = exampleElem.labels ++ [Label.verdict
            (jsToLower l == "trustworthy" || jsToLower l == "real")
            (jsRound (jsNumOr0 bananaData.confidence))
            (jsStrOr bananaData.summary "No summary available")
            (jsStrOr bananaData.model "BART/LLaMA")]) :=
  failure_iff_missing_label defaultSettings [] exampleElem
    { success := true, data := some bananaData } bananaData
    (by decide) (by decide) (by decide) (by decide) (by decide)

/-- C5 counterexample: a successful response with a data object that
has no label field is cached anyway (and renders as a failure), so a
cache entry is written for a response that is not well-formed. -/
theorem cache_write_without_label_cex :
    (processSearchResult defaultSettings [] exampleElem
        (FetchOutcome.reply (some { success := true, data := some noLabelData }))).cache
      = [(exampleUrl, noLabelData)] ∧
    noLabelData.label = none ∧
    renderedLabel noLabelData = Label.error := by
  decide

/-- C5 amended: a cache entry is written only when the `cacheResults`
setting is on and the response reports success with a present data
object (well-formedness of the label is not checked); hence no
failure reply and no run with `cacheResults` off ever changes the
cache. -/
theorem cache_write_gating (s : Settings) (cache : Cache) (e : Elem)
    (fetch : FetchOutcome)
    (hch : (processSearchResult s cache e fetch).cache ≠ cache) :
    s.cacheResults = true ∧ ∃ r d, fetch = FetchOutcome.reply (some r) ∧
      r.success = true ∧ r.data = some d ∧
      (processSearchResult s cache e fetch).cache = cacheSet cache e.url d := by
  by_cases hlt : (e.hasLink && e.hasTitle) = true
  case neg =>
    exfalso
    apply hch
    have hlt' : (e.hasLink && e.hasTitle) = false := by
      revert hlt
      cases e.hasLink <;> cases e.hasTitle <;> simp
    simp [processSearchResult, hlt', finallyCleanup]
  case pos =>
    by_cases hhit : cacheHas cache e.url = true
    · exfalso
      apply hch
      simp [processSearchResult, hlt, hhit, finallyCleanup]
    · simp only [Bool.not_eq_true] at hhit
      cases fetch with
      | throws =>
        exfalso
        apply hch
        simp [processSearchResult, hlt, hhit, finallyCleanup]
      | reply net =>
        cases net with
        | none =>
          exfalso
          apply hch
          simp [processSearchResult, hlt, hhit, analyzeUrlExtension, finallyCleanup]
        | some r =>
          cases hd : r.data with
          | none =>
            exfalso
            apply hch
            simp [processSearchResult, hlt, hhit, analyzeUrlExtension, hd, finallyCleanup]
          | some d =>
            cases hsu : r.success with
            | false =>
              exfalso
              apply hch
              simp [processSearchResult, hlt, hhit, analyzeUrlExtension, hd, hsu, finallyCleanup]
            | true =>
              cases hcr : s.cacheResults with
              | false =>
                exfalso
                apply hch
                simp [processSearchResult, hlt, hhit, analyzeUrlExtension, hd, hsu, hcr,
                  finallyCleanup]
              | true =>
                refine ⟨rfl, r, d, rfl, hsu, hd, ?_⟩
                simp [processSearchResult, hlt, hhit, analyzeUrlExtension, hd, hsu, hcr,
                  finallyCleanup]

/-- Witness for C5's amended theorem: with `cacheResults` on and a
successful data-carrying reply, the run writes exactly the entry for
the element's URL. -/
theorem cache_write_gating_witness :
    defaultSettings.cacheResults = true ∧ ∃ r d,
      FetchOutcome.reply (some { success := true, data := some realData })
        = FetchOutcome.reply (some r) ∧
      r.success = true ∧ r.data = some d ∧
      (processSearchResult defaultSettings [] exampleElem
          (FetchOutcome.reply (some { success := true, data := some realData }))).cache
        = cacheSet [] exampleElem.url d :=
  cache_write_gating defaultSettings [] exampleElem
    (FetchOutcome.reply (some { success := true, data := some realData })) (by decide)

/-- C6 counterexample: an element with a link but no title is
accepted by the eligibility predicate, though the claim says elements
lacking a title are rejected (the title check happens later, inside
`processSearchResult`). -/
theorem eligibility_ignores_title_cex :
    shouldProcessResult { hasLink := true, url := exampleUrl, hasTitle := false, title := "", labels := [], loading := false, processing := none } = true := by
  decide

/-- C6 amended: the predicate (a pure function of the element state)
accepts exactly the elements with no rendered label, no "true"
processing mark, a link, and an href that neither contains
"google.com" nor starts with "javascript:" — the maps/images checks
are subsumed by the google.com substring check, and the presence of a
title is not part of eligibility. -/
theorem eligibility_characterization (e : Elem) :
    shouldProcessResult e = true ↔
      e.labels = [] ∧ e.processing ≠ some "true" ∧ e.hasLink = true ∧
      jsIncludes e.url "google.com" = false ∧
      jsStartsWith e.url "javascript:" = false := by
  unfold shouldProcessResult
  constructor
  · intro h
    split_ifs at h with h1 h2 h3 h4
    refine ⟨?_, ?_, ?_, ?_, ?_⟩
    · cases hle : e.labels.isEmpty with
      | false => exact absurd (by simp [hle]) h1
      | true => simpa [List.isEmpty_iff] using hle
    · intro hp
      exact h2 (by simp [hp])
    · cases hlink : e.hasLink with
      | false => exact absurd (by simp [hlink]) h3
      | true => rfl
    · cases hg : jsIncludes e.url "google.com" with
      | true => exact absurd (by simp [hg]) h4
      | false => rfl
    · cases hj : jsStartsWith e.url "javascript:" with
      | true => exact absurd (by simp [hj]) h4
      | false => rfl
  · rintro ⟨hl, hp, hlink, hg, hj⟩
    have hm : jsIncludes e.url "maps.google.com" = false := by
      cases hmx : jsIncludes e.url "maps.google.com" with
      | false => rfl
      | true => exact absurd (includes_google_of_sub (by decide) hmx) (by simp [hg])
    have hi : jsIncludes e.url "images.google.com" = false := by
      cases hix : jsIncludes e.url "images.google.com" with
      | false => rfl
      | true => exact absurd (includes_google_of_sub (by decide) hix) (by simp [hg])
    simp [hl, hp, hlink, hg, hj, hm, hi]

/-- The state right after a CLEAR_CACHE message: empty cache, all
labels/indicators removed, all processing marks deleted, settings
untouched (the scheduled re-scan is the Bool component). -/
theorem handleMessage_clearCache (st : PageState) :
    (handleMessage st Message.clearCache).1
      = { settings := st.settings, cache := [],
          elems := removeAllLabels st.elems } := by
  unfold handleMessage
  dsimp only
  split <;> rfl

/-- On a cache miss with link and title present, one processing run
issues exactly one network request, whatever the fetch outcome. -/
theorem effects_on_cache_miss (s : Settings) (cache : Cache) (e : Elem)
    (fetch : FetchOutcome)
    (hlink : e.hasLink = true) (htitle : e.hasTitle = true)
    (hmiss : cacheHas cache e.url = false) :
    (processSearchResult s cache e fetch).effects
      = [Effect.networkRequest e.url e.title] := by
  cases fetch with
  | throws => simp [processSearchResult, hlink, htitle, hmiss, finallyCleanup]
  | reply net =>
    cases net with
    | none =>
      simp [processSearchResult, hlink, htitle, hmiss, analyzeUrlExtension,
        finallyCleanup]
    | some r =>
      cases hd : r.data with
      | none =>
        simp [processSearchResult, hlink, htitle, hmiss, analyzeUrlExtension, hd,
          finallyCleanup]
      | some d =>
        cases hsu : r.success <;>
          simp [processSearchResult, hlink, htitle, hmiss, analyzeUrlExtension, hd,
            hsu, finallyCleanup]

/-- C8: CLEAR_CACHE empties the cache, removes every rendered label
and loading indicator, resets every processing mark, and a following
processing run for a previously-cached URL issues exactly one network
request. -/
theorem clear_cache_then_single_network (st : PageState) (e : Elem)
    (fetch : FetchOutcome)
    (hprev : cacheHas st.cache e.url = true)
    (hlink : e.hasLink = true) (htitle : e.hasTitle = true) :
    ((handleMessage st Message.clearCache).1).cache = [] ∧
    (∀ e' ∈ ((handleMessage st Message.clearCache).1).elems,
      e'.labels = [] ∧ e'.loading = false ∧ e'.processing = none) ∧
    (processSearchResult ((handleMessage st Message.clearCache).1).settings
        ((handleMessage st Message.clearCache).1).cache e fetch).effects
      = [Effect.networkRequest e.url e.title] := by
  rw [handleMessage_clearCache]
  refine ⟨rfl, ?_, ?_⟩
  · intro e' he'
    simp only [removeAllLabels, List.mem_map] at he'
    obtain ⟨x, -, rfl⟩ := he'
    exact ⟨rfl, rfl, rfl⟩
  · exact effects_on_cache_miss _ _ _ _ hlink htitle rfl

/-- Witness for C8 at the concrete fixtures: one labeled element, one
cached entry, cleared, then a transport-error fetch. -/
theorem clear_cache_then_single_network_witness :
    ((handleMessage pageWithLabel Message.clearCache).1).cache = [] ∧
    (∀ e' ∈ ((handleMessage pageWithLabel Message.clearCache).1).elems,
      e'.labels = [] ∧ e'.loading = false ∧ e'.processing = none) ∧
    (processSearchResult ((handleMessage pageWithLabel Message.clearCache).1).settings
        ((handleMessage pageWithLabel Message.clearCache).1).cache exampleElem
        (FetchOutcome.reply none)).effects
      = [Effect.networkRequest exampleElem.url exampleElem.title] :=
  clear_cache_then_single_network pageWithLabel exampleElem (FetchOutcome.reply none)
    (by decide) (by decide) (by decide)

/-- While the extension is disabled, any step that is not an enabling
settings update keeps it disabled and keeps every element unlabeled. -/
theorem disabled_step_invariant (st : PageState) (stp : Step)
    (hdis : st.settings.enabled = false)
    (hempty : ∀ e ∈ st.elems, e.labels = [])
    (hne : stepEnables stp = false) :
    (stepRun st stp).settings.enabled = false ∧
    ∀ e ∈ (stepRun st stp).elems, e.labels = [] := by
  cases stp with
  | scan env =>
    have hres : processSearchResults st.settings st.cache st.elems env
        = { elems := st.elems, cache := st.cache, effects := [] } := by
      unfold processSearchResults
      rw [hdis]
      rfl
    constructor
    · simpa [stepRun] using hdis
    · intro e he
      apply hempty
      simpa [stepRun, hres] using he
  | msg m =>
    cases m with
    | settingsUpdated s' =>
      have hs' : s'.enabled = false := by simpa [stepEnables] using hne
      have hmsg : (handleMessage st (Message.settingsUpdated s')).1
          = { settings := s', cache := st.cache,
              elems := removeAllLabels st.elems } := by
        unfold handleMessage
        simp [hs']
      constructor
      · simpa [stepRun, hmsg] using hs'
      · intro e he
        simp only [stepRun, hmsg, removeAllLabels, List.mem_map] at he
        obtain ⟨x, -, rfl⟩ := he
        rfl
    | clearCache =>
      have hmsg := handleMessage_clearCache st
      constructor
      · simpa [stepRun, hmsg] using hdis
      · intro e he
        simp only [stepRun, hmsg, removeAllLabels, List.mem_map] at he
        obtain ⟨x, -, rfl⟩ := he
        rfl
    | other => exact ⟨hdis, hempty⟩

/-- While disabled, a whole run of non-enabling steps keeps every
element unlabeled. -/
theorem disabled_run_invariant (st : PageState) (trace : List Step)
    (hdis : st.settings.enabled = false)
    (hempty : ∀ e ∈ st.elems, e.labels = [])
    (htrace : ∀ stp ∈ trace, stepEnables stp = false) :
    ∀ e ∈ (runSteps st trace).elems, e.labels = [] := by
  induction trace generalizing st with
  | nil => simpa [runSteps] using hempty
  | cons stp rest ih =>
    have h1 := disabled_step_invariant st stp hdis hempty
      (htrace stp (List.mem_cons_self stp rest))
    have h2 := ih (stepRun st stp) h1.1 h1.2
      (fun s hs => htrace s (List.mem_cons_of_mem _ hs))
    simpa [runSteps] using h2

/-- C9: a settings update with enabled=false removes every rendered
label at once, and afterwards no sequence of scans and non-enabling
messages ever produces a label, until some update re-enables. -/
theorem disable_removes_and_halts (st : PageState) (s : Settings)
    (trace : List Step)
    (hdis : s.enabled = false)
    (htrace : ∀ stp ∈ trace, stepEnables stp = false) :
    (∀ e ∈ ((handleMessage st (Message.settingsUpdated s)).1).elems,
      e.labels = []) ∧
    (∀ e ∈ (runSteps ((handleMessage st (Message.settingsUpdated s)).1)
        trace).elems, e.labels = []) := by
  have hmsg : (handleMessage st (Message.settingsUpdated s)).1
      = { settings := s, cache := st.cache, elems := removeAllLabels st.elems } := by
    unfold handleMessage
    simp [hdis]
  have hempty : ∀ e ∈ removeAllLabels st.elems, e.labels = [] := by
    intro e he
    simp only [removeAllLabels, List.mem_map] at he
    obtain ⟨x, -, rfl⟩ := he
    rfl
  constructor
  · rw [hmsg]
    exact hempty
  · rw [hmsg]
    exact disabled_run_invariant _ trace hdis hempty htrace

/-- Witness for C9: disabling on a page with a labeled element, then
a cache clear, a scan, and an unknown message — no labels anywhere. -/
theorem disable_removes_and_halts_witness :
    (∀ e ∈ ((handleMessage pageWithLabel
        (Message.settingsUpdated disabledSettings)).1).elems, e.labels = []) ∧
    (∀ e ∈ (runSteps ((handleMessage pageWithLabel
        (Message.settingsUpdated disabledSettings)).1)
        [Step.msg Message.clearCache, Step.scan (fun _ => FetchOutcome.throws),
          Step.msg Message.other]).elems, e.labels = []) :=
  disable_removes_and_halts pageWithLabel disabledSettings
    [Step.msg Message.clearCache, Step.scan (fun _ => FetchOutcome.throws),
      Step.msg Message.other]
    (by decide) (by intro stp hstp; fin_cases hstp <;> rfl)
